import Mathlib

/-!
Verification of the answer-scoring core of a web music quiz.

The program (web_music_quiz.py) scores a player's guess of a song's title
and artist against the correct metadata: each pair of strings is lowered
and stripped, compared with a fuzzy similarity ratio, and the similarity
is mapped through inclusive threshold tiers to points (title up to 70,
artist up to 30).  The HTTP endpoint `submit_guess` validates the request
body and invokes the scorer.

Strings are embedded as `String`/`List Char`; the numeric similarity is
embedded exactly as a rational number.
-/

namespace MusicQuiz

/-- Characters removed by Python `str.strip()` with no argument
(ASCII whitespace). -/
def pyIsSpace (c : Char) : Bool :=
  c = ' ' || c = '\t' || c = '\n' || c = '\r' || c = '\x0b' || c = '\x0c'

/-- Python `str.strip()`: drop leading and trailing whitespace. -/
def pyStrip (s : List Char) : List Char :=
  ((s.dropWhile pyIsSpace).reverse.dropWhile pyIsSpace).reverse

/-- Python `str.lower()`: character-wise lower-casing (ASCII case map). -/
def pyLower (s : List Char) : List Char :=
  s.map Char.toLower

/-- The normalization `s.lower().strip()` that `calculate_score` applies to
each of its four string arguments before comparison (lines 114-115). -/
def lowerStrip (s : List Char) : List Char :=
  pyStrip (pyLower s)

/-- Python `str.strip()` on `String`, as used by `submit_guess`
(lines 208-209). -/
def stripS (s : String) : String :=
  String.mk (pyStrip s.toList)

/-- One step of the longest-common-subsequence recursion, abstracted over
the value of the recursion on the tail of the first list.  This shape keeps
the recursion structural so that concrete values reduce in the kernel. -/
def lcsCons (a : Char) (f : List Char → Nat) : List Char → Nat
  | [] => 0
  | b :: bs => if a = b then f bs + 1 else max (lcsCons a f bs) (f (b :: bs))

/-- Length of a longest common subsequence of two character lists. -/
def lcs : List Char → List Char → Nat
  | [] => fun _ => 0
  | a :: as => lcsCons a (lcs as)

/-- Modelled from the spec: the indel edit distance (minimal number of
character insertions and deletions transforming one string into the other)
that underlies the similarity ratio of the `rapidfuzz` library used at
lines 114-115; it equals `|a| + |b| - 2·lcs a b`. -/
def indel (a b : List Char) : Nat :=
  a.length + b.length - 2 * lcs a b

/-- Modelled from the spec: the similarity metric `fuzz.ratio` of the
`rapidfuzz` library (its code is not in this repository), "a normalized
edit-distance-based ratio in the range [0,100]": `100 * (1 - d / (|a| + |b|))`
with `d` the indel distance, and `100` when both strings are empty.  The
value is built with `mkRat` so that it evaluates on concrete inputs; the
lemma `fuzzRatio_eq_formula` below identifies it with the formula. -/
def fuzzRatio (a b : List Char) : ℚ :=
  if a.length + b.length = 0 then 100
  else mkRat ((100 * (a.length + b.length - indel a b) : ℕ) : ℤ) (a.length + b.length)

/-- Title tier (lines 120-126): similarity ≥ 90 → 70 points, ≥ 70 → 50,
≥ 50 → 30, otherwise 0. -/
def titlePoints (title_similarity : ℚ) : Nat :=
  if title_similarity ≥ 90 then 70
  else if title_similarity ≥ 70 then 50
  else if title_similarity ≥ 50 then 30
  else 0

/-- Artist tier (lines 128-134): similarity ≥ 90 → 30 points, ≥ 70 → 20,
≥ 50 → 10, otherwise 0. -/
def artistPoints (artist_similarity : ℚ) : Nat :=
  if artist_similarity ≥ 90 then 30
  else if artist_similarity ≥ 70 then 20
  else if artist_similarity ≥ 50 then 10
  else 0

/-- The dictionary returned by `calculate_score` (lines 136-144). -/
structure ScoreResult where
  total_points : Nat
  title_points : Nat
  artist_points : Nat
  response_time : Option ℚ
  time_message : String
  title_similarity : ℚ
  artist_similarity : ℚ
  deriving Repr, DecidableEq

/-- `WebMusicQuiz.calculate_score` (lines 112-144): normalize each pair with
`lower().strip()`, compute the fuzzy similarities, tier them independently,
and return the result record with `response_time` passed through and
`time_message` the empty string. -/
def calculate_score (user_title user_artist correct_title correct_artist : String)
    (response_time : Option ℚ) : ScoreResult :=
  let title_similarity := fuzzRatio (lowerStrip user_title.toList) (lowerStrip correct_title.toList)
  let artist_similarity := fuzzRatio (lowerStrip user_artist.toList) (lowerStrip correct_artist.toList)
  let title_points := titlePoints title_similarity
  let artist_points := artistPoints artist_similarity
  { total_points := title_points + artist_points
    title_points := title_points
    artist_points := artist_points
    response_time := response_time
    time_message := ""
    title_similarity := title_similarity
    artist_similarity := artist_similarity }

/-- The JSON body of a request to `/api/submit-guess`: each field may be
missing (`data.get` with a default). -/
structure GuessRequest where
  title : Option String
  artist : Option String
  correct_title : Option String
  correct_artist : Option String
  response_time : Option ℚ

/-- The JSON response of the `/api/submit-guess` endpoint: either a failure
message with `success == False`, or `success == True` with the score and the
echoed answers. -/
inductive SubmitResponse where
  | failure (message : String)
  | success (score : ScoreResult)
      (user_title user_artist correct_title correct_artist : String)
  deriving Repr, DecidableEq

/-- The `submit_guess` route handler (lines 204-223): strip the user's
title/artist (defaulting missing fields to the empty string), reject the
request when either is empty, otherwise score it. -/
def submit_guess (data : GuessRequest) : SubmitResponse :=
  let user_title := stripS (data.title.getD "")
  let user_artist := stripS (data.artist.getD "")
  let correct_title := data.correct_title.getD ""
  let correct_artist := data.correct_artist.getD ""
  if user_title = "" ∨ user_artist = "" then
    .failure "Please provide both title and artist"
  else
    .success (calculate_score user_title user_artist correct_title correct_artist
        data.response_time)
      user_title user_artist correct_title correct_artist

/-! ### Longest common subsequence: equations and basic bounds -/

theorem lcs_nil_left (l : List Char) : lcs [] l = 0 := rfl

theorem lcs_nil_right (l : List Char) : lcs l [] = 0 := by
  cases l <;> rfl

theorem lcs_cons_cons (a b : Char) (as bs : List Char) :
    lcs (a :: as) (b :: bs) =
      if a = b then lcs as bs + 1 else max (lcs (a :: as) bs) (lcs as (b :: bs)) := rfl

theorem lcs_le_left (a : List Char) : ∀ b, lcs a b ≤ a.length := by
  induction a with
  | nil => intro b; rw [lcs_nil_left]; exact Nat.zero_le _
  | cons x xs ih =>
    intro b
    induction b with
    | nil => rw [lcs_nil_right]; exact Nat.zero_le _
    | cons y ys ihb =>
      rw [lcs_cons_cons]
      by_cases h : x = y
      · rw [if_pos h]
        simpa using ih ys
      · rw [if_neg h]
        refine Nat.max_le.mpr ⟨ihb, ?_⟩
        exact le_trans (ih (y :: ys)) (by simp)

theorem lcs_comm (a : List Char) : ∀ b, lcs a b = lcs b a := by
  induction a with
  | nil => intro b; rw [lcs_nil_left, lcs_nil_right]
  | cons x xs ih =>
    intro b
    induction b with
    | nil => rw [lcs_nil_left, lcs_nil_right]
    | cons y ys ihb =>
      rw [lcs_cons_cons, lcs_cons_cons]
      by_cases h : x = y
      · subst h
        rw [if_pos rfl, if_pos rfl, ih ys]
      · have h' : ¬ y = x := fun hyx => h hyx.symm
        rw [if_neg h, if_neg h', ihb, ih (y :: ys), Nat.max_comm]

theorem lcs_le_right (a b : List Char) : lcs a b ≤ b.length := by
  rw [lcs_comm]; exact lcs_le_left b a

theorem lcs_self (a : List Char) : lcs a a = a.length := by
  induction a with
  | nil => rfl
  | cons x xs ih => rw [lcs_cons_cons, if_pos rfl, ih]; rfl

/-! ### Indel distance -/

theorem two_mul_lcs_le (a b : List Char) : 2 * lcs a b ≤ a.length + b.length := by
  have h1 := lcs_le_left a b
  have h2 := lcs_le_right a b
  omega

theorem indel_le (a b : List Char) : indel a b ≤ a.length + b.length :=
  Nat.sub_le _ _

theorem indel_comm (a b : List Char) : indel a b = indel b a := by
  unfold indel
  rw [lcs_comm, Nat.add_comm]

theorem indel_self (a : List Char) : indel a a = 0 := by
  unfold indel
  rw [lcs_self]
  omega

theorem indel_nil_left (b : List Char) : indel [] b = b.length := by
  unfold indel
  rw [lcs_nil_left]
  simp

/-! ### The similarity ratio -/

theorem fuzzRatio_eq_formula (a b : List Char) (h : a.length + b.length ≠ 0) :
    fuzzRatio a b =
      100 * (1 - (indel a b : ℚ) / ((a.length : ℚ) + (b.length : ℚ))) := by
  unfold fuzzRatio
  rw [if_neg h]
  have hle := indel_le a b
  have hs : ((a.length : ℚ) + (b.length : ℚ)) ≠ 0 := by
    have : (0 : ℚ) < (a.length : ℚ) + (b.length : ℚ) := by
      have : 0 < a.length + b.length := Nat.pos_of_ne_zero h
      exact_mod_cast this
    linarith
  rw [Rat.mkRat_eq_div]
  push_cast [Nat.sub_sub_self, hle]
  field_simp

theorem fuzzRatio_comm (a b : List Char) : fuzzRatio a b = fuzzRatio b a := by
  unfold fuzzRatio
  by_cases h : a.length + b.length = 0
  · rw [if_pos h, if_pos (by omega)]
  · rw [if_neg h, if_neg (by omega : ¬ b.length + a.length = 0)]
    rw [indel_comm, Nat.add_comm a.length b.length]

theorem fuzzRatio_self (a : List Char) : fuzzRatio a a = 100 := by
  by_cases h : a.length + a.length = 0
  · unfold fuzzRatio
    rw [if_pos h]
  · rw [fuzzRatio_eq_formula a a h, indel_self]
    norm_num

theorem fuzzRatio_nonneg (a b : List Char) : 0 ≤ fuzzRatio a b := by
  by_cases h : a.length + b.length = 0
  · unfold fuzzRatio
    rw [if_pos h]
    norm_num
  · rw [fuzzRatio_eq_formula a b h]
    have hle := indel_le a b
    have hpos : (0 : ℚ) < (a.length : ℚ) + (b.length : ℚ) := by
      have : 0 < a.length + b.length := Nat.pos_of_ne_zero h
      exact_mod_cast this
    have hq : (indel a b : ℚ) ≤ (a.length : ℚ) + (b.length : ℚ) := by exact_mod_cast hle
    have : (indel a b : ℚ) / ((a.length : ℚ) + (b.length : ℚ)) ≤ 1 := by
      rw [div_le_one hpos]; exact hq
    linarith

theorem fuzzRatio_le_100 (a b : List Char) : fuzzRatio a b ≤ 100 := by
  by_cases h : a.length + b.length = 0
  · unfold fuzzRatio
    rw [if_pos h]
  · rw [fuzzRatio_eq_formula a b h]
    have hpos : (0 : ℚ) < (a.length : ℚ) + (b.length : ℚ) := by
      have : 0 < a.length + b.length := Nat.pos_of_ne_zero h
      exact_mod_cast this
    have hd : (0 : ℚ) ≤ (indel a b : ℚ) := by positivity
    have : 0 ≤ (indel a b : ℚ) / ((a.length : ℚ) + (b.length : ℚ)) := by positivity
    linarith

theorem fuzzRatio_nil_left (b : List Char) (h : b ≠ []) : fuzzRatio [] b = 0 := by
  have hlen : b.length ≠ 0 := by
    intro h0
    exact h (List.length_eq_zero.mp h0)
  have hsum : ([] : List Char).length + b.length ≠ 0 := by simpa using hlen
  rw [fuzzRatio_eq_formula [] b hsum, indel_nil_left]
  have hq : ((b.length : ℚ)) ≠ 0 := by exact_mod_cast hlen
  simp [hq]

/-! ### Tier lemmas -/

theorem titlePoints_eq_iff (s : ℚ) :
    (titlePoints s = 70 ↔ 90 ≤ s) ∧
    (titlePoints s = 50 ↔ 70 ≤ s ∧ s < 90) ∧
    (titlePoints s = 30 ↔ 50 ≤ s ∧ s < 70) ∧
    (titlePoints s = 0 ↔ s < 50) := by
  unfold titlePoints
  by_cases h1 : (90 : ℚ) ≤ s
  · rw [if_pos h1]
    exact ⟨⟨fun _ => h1, fun _ => rfl⟩,
      ⟨fun hh => absurd hh (by decide), fun hh => absurd hh.2 (not_lt.mpr h1)⟩,
      ⟨fun hh => absurd hh (by decide), fun hh => absurd hh.2 (not_lt.mpr (by linarith))⟩,
      ⟨fun hh => absurd hh (by decide), fun hh => absurd hh (not_lt.mpr (by linarith))⟩⟩
  · rw [if_neg h1]
    by_cases h2 : (70 : ℚ) ≤ s
    · rw [if_pos h2]
      exact ⟨⟨fun hh => absurd hh (by decide), fun hh => absurd hh h1⟩,
        ⟨fun _ => ⟨h2, not_le.mp h1⟩, fun _ => rfl⟩,
        ⟨fun hh => absurd hh (by decide), fun hh => absurd hh.2 (not_lt.mpr h2)⟩,
        ⟨fun hh => absurd hh (by decide), fun hh => absurd hh (not_lt.mpr (by linarith))⟩⟩
    · rw [if_neg h2]
      by_cases h3 : (50 : ℚ) ≤ s
      · rw [if_pos h3]
        exact ⟨⟨fun hh => absurd hh (by decide), fun hh => absurd hh h1⟩,
          ⟨fun hh => absurd hh (by decide), fun hh => absurd hh.1 h2⟩,
          ⟨fun _ => ⟨h3, not_le.mp h2⟩, fun _ => rfl⟩,
          ⟨fun hh => absurd hh (by decide), fun hh => absurd hh (not_lt.mpr h3)⟩⟩
      · rw [if_neg h3]
        exact ⟨⟨fun hh => absurd hh (by decide), fun hh => absurd hh h1⟩,
          ⟨fun hh => absurd hh (by decide), fun hh => absurd hh.1 h2⟩,
          ⟨fun hh => absurd hh (by decide), fun hh => absurd hh.1 h3⟩,
          ⟨fun _ => not_le.mp h3, fun _ => rfl⟩⟩

theorem artistPoints_eq_iff (s : ℚ) :
    (artistPoints s = 30 ↔ 90 ≤ s) ∧
    (artistPoints s = 20 ↔ 70 ≤ s ∧ s < 90) ∧
    (artistPoints s = 10 ↔ 50 ≤ s ∧ s < 70) ∧
    (artistPoints s = 0 ↔ s < 50) := by
  unfold artistPoints
  by_cases h1 : (90 : ℚ) ≤ s
  · rw [if_pos h1]
    exact ⟨⟨fun _ => h1, fun _ => rfl⟩,
      ⟨fun hh => absurd hh (by decide), fun hh => absurd hh.2 (not_lt.mpr h1)⟩,
      ⟨fun hh => absurd hh (by decide), fun hh => absurd hh.2 (not_lt.mpr (by linarith))⟩,
      ⟨fun hh => absurd hh (by decide), fun hh => absurd hh (not_lt.mpr (by linarith))⟩⟩
  · rw [if_neg h1]
    by_cases h2 : (70 : ℚ) ≤ s
    · rw [if_pos h2]
      exact ⟨⟨fun hh => absurd hh (by decide), fun hh => absurd hh h1⟩,
        ⟨fun _ => ⟨h2, not_le.mp h1⟩, fun _ => rfl⟩,
        ⟨fun hh => absurd hh (by decide), fun hh => absurd hh.2 (not_lt.mpr h2)⟩,
        ⟨fun hh => absurd hh (by decide), fun hh => absurd hh (not_lt.mpr (by linarith))⟩⟩
    · rw [if_neg h2]
      by_cases h3 : (50 : ℚ) ≤ s
      · rw [if_pos h3]
        exact ⟨⟨fun hh => absurd hh (by decide), fun hh => absurd hh h1⟩,
          ⟨fun hh => absurd hh (by decide), fun hh => absurd hh.1 h2⟩,
          ⟨fun _ => ⟨h3, not_le.mp h2⟩, fun _ => rfl⟩,
          ⟨fun hh => absurd hh (by decide), fun hh => absurd hh (not_lt.mpr h3)⟩⟩
      · rw [if_neg h3]
        exact ⟨⟨fun hh => absurd hh (by decide), fun hh => absurd hh h1⟩,
          ⟨fun hh => absurd hh (by decide), fun hh => absurd hh.1 h2⟩,
          ⟨fun hh => absurd hh (by decide), fun hh => absurd hh.1 h3⟩,
          ⟨fun _ => not_le.mp h3, fun _ => rfl⟩⟩

theorem titlePoints_mem (s : ℚ) : titlePoints s ∈ [0, 30, 50, 70] := by
  unfold titlePoints
  split_ifs <;> simp

theorem artistPoints_mem (s : ℚ) : artistPoints s ∈ [0, 10, 20, 30] := by
  unfold artistPoints
  split_ifs <;> simp

theorem titlePoints_mono {s t : ℚ} (h : s ≤ t) : titlePoints s ≤ titlePoints t := by
  unfold titlePoints
  split_ifs <;> first | decide | linarith

/-! ### Unfolding equations for `calculate_score` -/

theorem calculate_score_title_similarity (ut ua ct ca : String) (rt : Option ℚ) :
    (calculate_score ut ua ct ca rt).title_similarity =
      fuzzRatio (lowerStrip ut.toList) (lowerStrip ct.toList) := rfl

theorem calculate_score_artist_similarity (ut ua ct ca : String) (rt : Option ℚ) :
    (calculate_score ut ua ct ca rt).artist_similarity =
      fuzzRatio (lowerStrip ua.toList) (lowerStrip ca.toList) := rfl

theorem calculate_score_title_points (ut ua ct ca : String) (rt : Option ℚ) :
    (calculate_score ut ua ct ca rt).title_points =
      titlePoints (fuzzRatio (lowerStrip ut.toList) (lowerStrip ct.toList)) := rfl

theorem calculate_score_artist_points (ut ua ct ca : String) (rt : Option ℚ) :
    (calculate_score ut ua ct ca rt).artist_points =
      artistPoints (fuzzRatio (lowerStrip ua.toList) (lowerStrip ca.toList)) := rfl

theorem calculate_score_total_points (ut ua ct ca : String) (rt : Option ℚ) :
    (calculate_score ut ua ct ca rt).total_points =
      (calculate_score ut ua ct ca rt).title_points +
        (calculate_score ut ua ct ca rt).artist_points := rfl

/-! ### Monotonicity of the ratio in the edit distance, at equal lengths -/

theorem fuzzRatio_le_of_indel_le (a b t : List Char) (hlen : a.length = b.length)
    (hed : indel a t ≤ indel b t) : fuzzRatio b t ≤ fuzzRatio a t := by
  by_cases h : a.length + t.length = 0
  · have hb : b.length + t.length = 0 := by omega
    unfold fuzzRatio
    rw [if_pos h, if_pos hb]
  · have hb : ¬ b.length + t.length = 0 := by omega
    rw [fuzzRatio_eq_formula a t h, fuzzRatio_eq_formula b t hb]
    have hpos : (0 : ℚ) < (a.length : ℚ) + (t.length : ℚ) := by
      have : 0 < a.length + t.length := Nat.pos_of_ne_zero h
      exact_mod_cast this
    have hcast : ((b.length : ℚ)) = ((a.length : ℚ)) := by exact_mod_cast hlen.symm
    rw [hcast]
    have hq : (indel a t : ℚ) ≤ (indel b t : ℚ) := by exact_mod_cast hed
    have hdiv : (indel a t : ℚ) / ((a.length : ℚ) + (t.length : ℚ)) ≤
        (indel b t : ℚ) / ((a.length : ℚ) + (t.length : ℚ)) :=
      (div_le_div_iff_of_pos_right hpos).mpr hq
    linarith

/-! ### The claims -/

/-- C1: `calculate_score` assigns the title and artist points by independent
inclusive-lower-bound tiers on the respective similarity, evaluated
highest-first with the first match winning: title points are 70 exactly when
the title similarity is at least 90, 50 exactly when it lies in [70, 90),
30 exactly on [50, 70) and 0 exactly below 50; artist points are 30, 20, 10
and 0 on the same bands. -/
theorem calculate_score_tiers (ut ua ct ca : String) (rt : Option ℚ) :
    ((calculate_score ut ua ct ca rt).title_points = 70 ↔
        90 ≤ (calculate_score ut ua ct ca rt).title_similarity) ∧
    ((calculate_score ut ua ct ca rt).title_points = 50 ↔
        70 ≤ (calculate_score ut ua ct ca rt).title_similarity ∧
          (calculate_score ut ua ct ca rt).title_similarity < 90) ∧
    ((calculate_score ut ua ct ca rt).title_points = 30 ↔
        50 ≤ (calculate_score ut ua ct ca rt).title_similarity ∧
          (calculate_score ut ua ct ca rt).title_similarity < 70) ∧
    ((calculate_score ut ua ct ca rt).title_points = 0 ↔
        (calculate_score ut ua ct ca rt).title_similarity < 50) ∧
    ((calculate_score ut ua ct ca rt).artist_points = 30 ↔
        90 ≤ (calculate_score ut ua ct ca rt).artist_similarity) ∧
    ((calculate_score ut ua ct ca rt).artist_points = 20 ↔
        70 ≤ (calculate_score ut ua ct ca rt).artist_similarity ∧
          (calculate_score ut ua ct ca rt).artist_similarity < 90) ∧
    ((calculate_score ut ua ct ca rt).artist_points = 10 ↔
        50 ≤ (calculate_score ut ua ct ca rt).artist_similarity ∧
          (calculate_score ut ua ct ca rt).artist_similarity < 70) ∧
    ((calculate_score ut ua ct ca rt).artist_points = 0 ↔
        (calculate_score ut ua ct ca rt).artist_similarity < 50) := by
  have ht := titlePoints_eq_iff (fuzzRatio (lowerStrip ut.toList) (lowerStrip ct.toList))
  have ha := artistPoints_eq_iff (fuzzRatio (lowerStrip ua.toList) (lowerStrip ca.toList))
  exact ⟨ht.1, ht.2.1, ht.2.2.1, ht.2.2.2, ha.1, ha.2.1, ha.2.2.1, ha.2.2.2⟩

/-- C2: the result of `calculate_score` always satisfies
`total_points = title_points + artist_points`; its title points lie in
{0, 30, 50, 70}, its artist points in {0, 10, 20, 30}, its total in
{0, 10, ..., 100}, and the total is bounded by 0 and 100. -/
theorem calculate_score_invariants (ut ua ct ca : String) (rt : Option ℚ) :
    (calculate_score ut ua ct ca rt).total_points =
        (calculate_score ut ua ct ca rt).title_points +
          (calculate_score ut ua ct ca rt).artist_points ∧
    (calculate_score ut ua ct ca rt).title_points ∈ [0, 30, 50, 70] ∧
    (calculate_score ut ua ct ca rt).artist_points ∈ [0, 10, 20, 30] ∧
    (calculate_score ut ua ct ca rt).total_points ∈
        [0, 10, 20, 30, 40, 50, 60, 70, 80, 90, 100] ∧
    0 ≤ (calculate_score ut ua ct ca rt).total_points ∧
    (calculate_score ut ua ct ca rt).total_points ≤ 100 := by
  have ht := titlePoints_mem (fuzzRatio (lowerStrip ut.toList) (lowerStrip ct.toList))
  have ha := artistPoints_mem (fuzzRatio (lowerStrip ua.toList) (lowerStrip ca.toList))
  simp only [List.mem_cons, List.not_mem_nil, or_false] at ht ha
  refine ⟨rfl, titlePoints_mem _, artistPoints_mem _, ?_, Nat.zero_le _, ?_⟩
  · rw [calculate_score_total_points, calculate_score_title_points,
      calculate_score_artist_points]
    rcases ht with h | h | h | h <;> rcases ha with h2 | h2 | h2 | h2 <;>
      rw [h, h2] <;> decide
  · rw [calculate_score_total_points, calculate_score_title_points,
      calculate_score_artist_points]
    rcases ht with h | h | h | h <;> rcases ha with h2 | h2 | h2 | h2 <;>
      rw [h, h2] <;> decide

/-- C3: the similarity metric is symmetric in its two strings, always lies in
[0, 100] and equals 100 on identical strings; consequently guessing the exact
correct title and artist yields similarity 100 on both and a total of 100
points. -/
theorem similarity_symm_bounds_identity :
    (∀ a b : List Char, fuzzRatio a b = fuzzRatio b a) ∧
    (∀ a b : List Char, 0 ≤ fuzzRatio a b ∧ fuzzRatio a b ≤ 100) ∧
    (∀ a : List Char, fuzzRatio a a = 100) ∧
    (∀ (t a : String) (rt : Option ℚ),
      (calculate_score t a t a rt).title_similarity = 100 ∧
      (calculate_score t a t a rt).artist_similarity = 100 ∧
      (calculate_score t a t a rt).total_points = 100) := by
  refine ⟨fuzzRatio_comm, fun a b => ⟨fuzzRatio_nonneg a b, fuzzRatio_le_100 a b⟩,
    fuzzRatio_self, fun t a rt => ⟨fuzzRatio_self _, fuzzRatio_self _, ?_⟩⟩
  rw [calculate_score_total_points, calculate_score_title_points,
    calculate_score_artist_points, fuzzRatio_self, fuzzRatio_self]
  decide

/-- C4 counterexample: the claim asserts that a `("", "")` guess against
non-empty correct strings gives low or zero similarities and zero total
points, but against the non-empty correct strings `(" ", " ")` (which
normalize to empty) the code yields similarity 100 and a full 100 points. -/
theorem empty_guess_counterexample :
    " " ≠ "" ∧
    (calculate_score "" "" " " " " none).title_similarity = 100 ∧
    (calculate_score "" "" " " " " none).artist_similarity = 100 ∧
    (calculate_score "" "" " " " " none).total_points = 100 := by decide

/-- C4 amended: every call of `calculate_score` returns a complete
`ScoreResult` (it is a total function); when a compared pair normalizes to
empty on both sides the similarity is 100, and a `("", "")` guess against
correct strings that are non-empty after normalization yields similarity 0
on both coordinates and total 0. -/
theorem empty_guess_amended (ct ca : String) (rt : Option ℚ) :
    (lowerStrip ct.toList = [] →
      (calculate_score "" "" ct ca rt).title_similarity = 100) ∧
    (lowerStrip ct.toList ≠ [] →
      (calculate_score "" "" ct ca rt).title_similarity = 0) ∧
    (lowerStrip ca.toList = [] →
      (calculate_score "" "" ct ca rt).artist_similarity = 100) ∧
    (lowerStrip ca.toList ≠ [] →
      (calculate_score "" "" ct ca rt).artist_similarity = 0) ∧
    (lowerStrip ct.toList ≠ [] → lowerStrip ca.toList ≠ [] →
      (calculate_score "" "" ct ca rt).total_points = 0) := by
  have hnt : lowerStrip "".toList = ([] : List Char) := rfl
  refine ⟨fun h => ?_, fun h => ?_, fun h => ?_, fun h => ?_, fun h1 h2 => ?_⟩
  · rw [calculate_score_title_similarity, hnt, h]
    exact fuzzRatio_self []
  · rw [calculate_score_title_similarity, hnt]
    exact fuzzRatio_nil_left _ h
  · rw [calculate_score_artist_similarity, hnt, h]
    exact fuzzRatio_self []
  · rw [calculate_score_artist_similarity, hnt]
    exact fuzzRatio_nil_left _ h
  · rw [calculate_score_total_points, calculate_score_title_points,
      calculate_score_artist_points, hnt, fuzzRatio_nil_left _ h1,
      fuzzRatio_nil_left _ h2]
    decide

/-- C4 witness: a concrete `("", "")` guess against `("Queen", "Queen")`
scores zero, by the amended theorem. -/
theorem empty_guess_amended_witness :
    (calculate_score "" "" "Queen" "Queen" none).total_points = 0 :=
  (empty_guess_amended "Queen" "Queen" none).2.2.2.2 (by decide) (by decide)

/-- C5: `calculate_score` depends on each string argument only through its
normalization by lower-casing then stripping leading/trailing whitespace:
replacing any argument by one with the same normalization leaves the whole
result unchanged. -/
theorem case_whitespace_insensitive (ut ua ct ca ut2 ua2 ct2 ca2 : String)
    (rt : Option ℚ)
    (h1 : lowerStrip ut2.toList = lowerStrip ut.toList)
    (h2 : lowerStrip ua2.toList = lowerStrip ua.toList)
    (h3 : lowerStrip ct2.toList = lowerStrip ct.toList)
    (h4 : lowerStrip ca2.toList = lowerStrip ca.toList) :
    calculate_score ut2 ua2 ct2 ca2 rt = calculate_score ut ua ct ca rt := by
  simp only [calculate_score, h1, h2, h3, h4]

/-- C5 witness: `(" Hello ", " World ")` scores exactly like
`("hello", "world")` against the same correct answer. -/
theorem case_whitespace_insensitive_witness :
    calculate_score " Hello " " World " "hello" "world" none =
      calculate_score "hello" "world" "hello" "world" none :=
  case_whitespace_insensitive "hello" "world" "hello" "world"
    " Hello " " World " "hello" "world" none
    (by decide) (by decide) (by decide) (by decide)

/-- C6 counterexample: with correct title `"aaaa"`, the empty guess needs 4
character edits and the guess `"aaaabbbbb"` needs 5, yet the empty guess
earns strictly fewer title points (0 against 30): monotonicity in the raw
edit count fails across different guess lengths. -/
theorem edit_monotonicity_counterexample :
    indel (lowerStrip "".toList) (lowerStrip "aaaa".toList) <
      indel (lowerStrip "aaaabbbbb".toList) (lowerStrip "aaaa".toList) ∧
    (calculate_score "" "q" "aaaa" "q" none).title_points <
      (calculate_score "aaaabbbbb" "q" "aaaa" "q" none).title_points := by decide

/-- C6 amended: for two title guesses of equal normalized length against a
fixed correct title (other arguments held fixed), strictly fewer character
edits (insertions/deletions) to the normalized correct title award at least
as many title points. -/
theorem edit_monotonicity_amended (g1 g2 t ua ca : String) (rt : Option ℚ)
    (hlen : (lowerStrip g1.toList).length = (lowerStrip g2.toList).length)
    (hed : indel (lowerStrip g1.toList) (lowerStrip t.toList) <
        indel (lowerStrip g2.toList) (lowerStrip t.toList)) :
    (calculate_score g2 ua t ca rt).title_points ≤
      (calculate_score g1 ua t ca rt).title_points := by
  rw [calculate_score_title_points, calculate_score_title_points]
  exact titlePoints_mono (fuzzRatio_le_of_indel_le _ _ _ hlen (le_of_lt hed))

/-- C6 witness: the exact guess `"abcd"` (0 edits) earns at least as many
title points as the same-length guess `"abxy"` (4 edits). -/
theorem edit_monotonicity_amended_witness :
    (calculate_score "abxy" "q" "abcd" "q" none).title_points ≤
      (calculate_score "abcd" "q" "abcd" "q" none).title_points :=
  edit_monotonicity_amended "abcd" "abxy" "abcd" "q" "q" none (by decide) (by decide)

/-- C7: changing only the artist guess never changes the title points or the
title similarity, changing only the title guess never changes the artist
points or the artist similarity, and the total is the sum of the two
independently computed sub-scores. -/
theorem title_artist_independent (ut ut2 ua ua2 ct ca : String) (rt : Option ℚ) :
    (calculate_score ut ua2 ct ca rt).title_points =
        (calculate_score ut ua ct ca rt).title_points ∧
    (calculate_score ut ua2 ct ca rt).title_similarity =
        (calculate_score ut ua ct ca rt).title_similarity ∧
    (calculate_score ut2 ua ct ca rt).artist_points =
        (calculate_score ut ua ct ca rt).artist_points ∧
    (calculate_score ut2 ua ct ca rt).artist_similarity =
        (calculate_score ut ua ct ca rt).artist_similarity ∧
    (calculate_score ut ua ct ca rt).total_points =
        (calculate_score ut ua ct ca rt).title_points +
          (calculate_score ut ua ct ca rt).artist_points :=
  ⟨rfl, rfl, rfl, rfl, rfl⟩

/-- C8: guessing `("bohemian rapsody", "queen")` against
`("Bohemian Rhapsody", "Queen")` yields a title similarity of at least 90,
70 title points, 30 artist points and a total of 100. -/
theorem bohemian_scenario :
    90 ≤ (calculate_score "bohemian rapsody" "queen"
        "Bohemian Rhapsody" "Queen" none).title_similarity ∧
    (calculate_score "bohemian rapsody" "queen"
        "Bohemian Rhapsody" "Queen" none).title_points = 70 ∧
    (calculate_score "bohemian rapsody" "queen"
        "Bohemian Rhapsody" "Queen" none).artist_points = 30 ∧
    (calculate_score "bohemian rapsody" "queen"
        "Bohemian Rhapsody" "Queen" none).total_points = 100 := by decide

/-- C9: `response_time` is passed through unchanged, `time_message` is always
the empty string, and two calls differing only in `response_time` agree on
every other field of the result. -/
theorem response_time_passthrough (ut ua ct ca : String) (rt rt2 : Option ℚ) :
    (calculate_score ut ua ct ca rt).response_time = rt ∧
    (calculate_score ut ua ct ca rt).time_message = "" ∧
    (calculate_score ut ua ct ca rt2).total_points =
        (calculate_score ut ua ct ca rt).total_points ∧
    (calculate_score ut ua ct ca rt2).title_points =
        (calculate_score ut ua ct ca rt).title_points ∧
    (calculate_score ut ua ct ca rt2).artist_points =
        (calculate_score ut ua ct ca rt).artist_points ∧
    (calculate_score ut ua ct ca rt2).title_similarity =
        (calculate_score ut ua ct ca rt).title_similarity ∧
    (calculate_score ut ua ct ca rt2).artist_similarity =
        (calculate_score ut ua ct ca rt).artist_similarity ∧
    (calculate_score ut ua ct ca rt2).time_message =
        (calculate_score ut ua ct ca rt).time_message :=
  ⟨rfl, rfl, rfl, rfl, rfl, rfl, rfl, rfl⟩

/-- C10: the submit-guess endpoint rejects a request whose title or artist
field is missing or strips to empty, with the fixed failure message and no
score; otherwise it succeeds with the score of the stripped user fields
against the unmodified correct fields. -/
theorem submit_guess_validation (data : GuessRequest) :
    ((data.title = none ∨ data.artist = none ∨ stripS (data.title.getD "") = "" ∨
        stripS (data.artist.getD "") = "") →
      submit_guess data = SubmitResponse.failure "Please provide both title and artist") ∧
    (stripS (data.title.getD "") ≠ "" → stripS (data.artist.getD "") ≠ "" →
      submit_guess data =
        SubmitResponse.success
          (calculate_score (stripS (data.title.getD "")) (stripS (data.artist.getD ""))
            (data.correct_title.getD "") (data.correct_artist.getD "")
            data.response_time)
          (stripS (data.title.getD "")) (stripS (data.artist.getD ""))
          (data.correct_title.getD "") (data.correct_artist.getD "")) := by
  constructor
  · intro h
    have hcond : stripS (data.title.getD "") = "" ∨ stripS (data.artist.getD "") = "" := by
      rcases h with h | h | h | h
      · left; rw [h]; rfl
      · right; rw [h]; rfl
      · left; exact h
      · right; exact h
    simp only [submit_guess]
    rw [if_pos hcond]
  · intro h1 h2
    have hcond : ¬ (stripS (data.title.getD "") = "" ∨
        stripS (data.artist.getD "") = "") := by
      rintro (h | h)
      · exact h1 h
      · exact h2 h
    simp only [submit_guess]
    rw [if_neg hcond]

/-- C10 witness: a request whose title is only whitespace is rejected with
the fixed message, by the validation theorem. -/
theorem submit_guess_validation_witness :
    submit_guess ⟨some "   ", some "queen", some "T", some "A", none⟩ =
      SubmitResponse.failure "Please provide both title and artist" :=
  (submit_guess_validation ⟨some "   ", some "queen", some "T", some "A", none⟩).1
    (Or.inr (Or.inr (Or.inl (by decide))))

end MusicQuiz
